import Mathlib

set_option maxRecDepth 16384

/-!
Verification of the domain-scanner core (candidate generator, regex guard,
signal-probe classifier, worker pipeline) against its Go sources.

The Go code is shallowly embedded: pure string manipulation is translated
directly; network probes (DNS lookups, TLS dial, WHOIS queries) are oracles
supplied through an environment record; the run-scoped special-status list is
made explicit as a returned list of records.  Go `int` arithmetic is modelled
with `Nat`/`Int`; where a claim depends on the absence of 64-bit overflow the
theorem carries an explicit bound.  Go's `strings.ToLower`/`ToUpper` are
modelled on ASCII (all indicator strings and inputs considered are ASCII).
-/

namespace DomainScanner

/-- ASCII lowercase of one character, as `strings.ToLower` acts on ASCII. -/
def asciiLowerChar (c : Char) : Char :=
  if 'A' ≤ c && c ≤ 'Z' then Char.ofNat (c.toNat + 32) else c

/-- ASCII uppercase of one character, as `strings.ToUpper` acts on ASCII. -/
def asciiUpperChar (c : Char) : Char :=
  if 'a' ≤ c && c ≤ 'z' then Char.ofNat (c.toNat - 32) else c

/-- ASCII model of Go `strings.ToLower`. -/
def asciiLower (s : String) : String := String.mk (s.data.map asciiLowerChar)

/-- ASCII model of Go `strings.ToUpper`. -/
def asciiUpper (s : String) : String := String.mk (s.data.map asciiUpperChar)

/-- Substring occurrence on character lists: `containsSub needle hay` is true
iff `needle` occurs contiguously inside `hay` (an empty needle always occurs). -/
def containsSub (needle : List Char) : List Char → Bool
  | [] => needle.isEmpty
  | c :: t => needle.isPrefixOf (c :: t) || containsSub needle t

/-- Model of Go `strings.Contains s sub`. -/
def goContains (s sub : String) : Bool := containsSub sub.data s.data

/-- Model of Go `strings.Count s c` for a single-character `c`. -/
def goCountChar (s : String) (c : Char) : Nat := s.data.count c

/-- Model of Go `strings.TrimPre` behaviour (`strings.TrimPrefix p` applied
to `s`): drops the leading occurrence of `p` when present. -/
def goTrimPre (p s : String) : String :=
  if p.data.isPrefixOf s.data then String.mk (s.data.drop p.data.length) else s

/-- `containsAny r l` is true iff some string of `l` occurs in `r`
(the shape of every indicator-matching loop in the Go checker). -/
def containsAny (r : String) (l : List String) : Bool :=
  l.any fun i => goContains r i

/-- Byte length of one character under UTF-8, mirroring what Go `len` (bytes)
adds per rune. -/
def charUtf8Len (c : Char) : Nat :=
  if c.toNat < 0x80 then 1
  else if c.toNat < 0x800 then 2
  else if c.toNat < 0x10000 then 3
  else 4

/-- Model of Go `len` on a string: its UTF-8 byte count. -/
def goLen (s : String) : Nat := s.data.foldl (fun n c => n + charUtf8Len c) 0

/-! ## Regex guard (`validateRegexComplexity`, internal/generator) -/

/-- The fixed deny-list of catastrophic-backtracking shapes
(`dangerousPatterns` in `validateRegexComplexity`). -/
def dangerousPatterns : List String :=
  ["(.*)*", "(.+)+", "(a+)+", "(a*)*", "(.\x7b0,\x7d)*", "(\\w+)*\\w*"]

/-- Embedding of `validateRegexComplexity`: `some msg` is the returned error,
`none` means the pattern is accepted. -/
def validateRegexComplexity (pattern : String) : Option String :=
  if 200 < goLen pattern then
    some "regex pattern too long (max 200 characters)"
  else
    match dangerousPatterns.find? (fun d => goContains pattern d) with
    | some d => some ("detected potentially dangerous regex pattern: " ++ d)
    | none =>
      if 5 < goCountChar pattern '+' + goCountChar pattern '*' then
        some "too many quantifiers in regex pattern (max 5)"
      else
        none

/-! ## Candidate generator (internal/generator) -/

/-- The two regex application modes (`types.RegexMode`). -/
inductive RegexMode where
  | full
  | prefixMode
deriving DecidableEq

/-- The letters alphabet of `GenerateDomains`. -/
def lettersCharset : List Char := "abcdefghijklmnopqrstuvwxyz".data

/-- The numbers alphabet of `GenerateDomains`. -/
def numbersCharset : List Char := "0123456789".data

/-- Alphabet selected by a pattern flag, as the `switch` in `GenerateDomains`
(`d` digits, `D` letters, `a` alphanumeric; anything else is a fatal
configuration error, modelled as `none`). -/
def charsetFor (pattern : String) : Option (List Char) :=
  match pattern with
  | "d" => some numbersCharset
  | "D" => some lettersCharset
  | "a" => some (lettersCharset ++ numbersCharset)
  | _ => none

/-- The `total := 1; for i < n { total *= size }` loop shared by
`generateCombinationsIterative` and `CalculateDomainsCount`. -/
def goTotal (size n : Nat) : Nat :=
  (List.range n).foldl (fun acc _ => acc * size) 1

/-- The inner counter-to-string loop of `generateCombinationsIterative`:
repeated division/modulo, each new symbol prepended, so the most significant
symbol ends up first. -/
def counterChars (cs : List Char) : Nat → Nat → List Char
  | 0, _ => []
  | l + 1, temp =>
      counterChars cs l (temp / cs.length) ++ [cs.getD (temp % cs.length) 'a']

/-- Embedding of `generateCombinationsIterative`.  The compiled regexp2
matcher (including its timeout/error handling in `safeRegexMatch`, where an
error counts as a non-match) is abstracted as a boolean predicate `filt`;
`none` models a run without a regex filter (`regex == nil`). -/
def genDomains (cs : List Char) (length : Int) (suffix : String)
    (filt : Option (String → Bool)) (mode : RegexMode) : List String :=
  if cs.length = 0 ∨ length ≤ 0 then [] else
  let len := length.toNat
  let total := goTotal cs.length len
  (List.range total).filterMap fun counter =>
    let current := String.mk (counterChars cs len counter)
    let domain := current ++ suffix
    let ok : Bool :=
      match mode, filt with
      | _, none => true
      | RegexMode.full, some f => f domain
      | RegexMode.prefixMode, some f => f current
    if ok then some domain else none

/-- Embedding of `GenerateDomains` (pattern dispatch; an invalid pattern
aborts the run before producing anything, modelled as the empty output). -/
def GenerateDomains (length : Int) (suffix : String) (pattern : String)
    (filt : Option (String → Bool)) (mode : RegexMode) : List String :=
  match charsetFor pattern with
  | some cs => genDomains cs length suffix filt mode
  | none => []

/-- Embedding of `CalculateDomainsCount` (hard-coded sizes 10/26/36, result
of the same multiply loop; unknown patterns return 0). -/
def CalculateDomainsCount (length : Int) (pattern : String) : Nat :=
  match pattern with
  | "d" => goTotal 10 length.toNat
  | "D" => goTotal 26 length.toNat
  | "a" => goTotal 36 length.toNat
  | _ => 0

/-! ## Signal probes and classifier (internal/domain checker) -/

/-- The scanner-method toggles of `types.Config` that the checker consults
(`Scanner.Methods`); the remaining configuration fields are irrelevant to the
checker and omitted. -/
structure Config where
  dnsCheck : Bool
  whoisCheck : Bool
  sslCheck : Bool
deriving DecidableEq

/-- `globalConfig == nil || globalConfig.Scanner.Methods.DNSCheck`. -/
def dnsEnabled : Option Config → Bool
  | none => true
  | some c => c.dnsCheck

/-- `globalConfig == nil || globalConfig.Scanner.Methods.WHOISCheck`. -/
def whoisEnabled : Option Config → Bool
  | none => true
  | some c => c.whoisCheck

/-- `globalConfig == nil || globalConfig.Scanner.Methods.SSLCheck`. -/
def sslEnabled : Option Config → Bool
  | none => true
  | some c => c.sslCheck

/-- One record of the run-scoped special-status list
(`types.SpecialStatusDomain`). -/
structure SpecialStatusDomain where
  domain : String
  status : String
  reason : String
deriving DecidableEq

/-- Outcome of one `whois.Whois(domain)` call: the returned text, or the
error's message. -/
inductive WhoisOutcome where
  | ok (text : String)
  | err (msg : String)
deriving DecidableEq

/-- Oracles for one candidate's network probes.  DNS booleans stand for
"the lookup returned without error and with at least one record"; `cname` is
the successfully resolved CNAME target (`none` = lookup error); `ssl` is
`some hasCerts` when the TLS dial succeeded.  `whoisSig` indexes the WHOIS
calls made inside `CheckDomainSignatures`, `whoisAvail` the separate calls of
the final-verification loop in `CheckDomainAvailability`. -/
structure DNSEnv where
  ns : Bool
  a : Bool
  mx : Bool
  txt : Bool
  cname : Option String

structure Env where
  dns : DNSEnv
  whoisSig : Nat → WhoisOutcome
  ssl : Option Bool
  whoisAvail : Nat → WhoisOutcome

/-- Embedding of `checkDNSRecords`: one signature per non-empty lookup;
CNAME counts only when non-empty and different from `domain + "."`.  The Go
function ends in `return signatures, nil`: the error is always `none`. -/
def checkDNSRecords (domain : String) (d : DNSEnv) : List String × Option String :=
  ((if d.ns then ["DNS_NS"] else []) ++
   (if d.a then ["DNS_A"] else []) ++
   (if d.mx then ["DNS_MX"] else []) ++
   (if d.txt then ["DNS_TXT"] else []) ++
   (match d.cname with
    | some c => if c != "" && c != domain ++ "." then ["DNS_CNAME"] else []
    | none => []), none)

/-- `registeredIndicators` of the checker, in source order. -/
def registeredIndicators : List String :=
  ["registrar:", "registrant:", "creation date:", "created:",
   "updated date:", "updated:", "expiration date:", "expires:",
   "name server:", "nserver:", "nameserver:",
   "status: active", "status: client", "status: ok", "status: locked",
   "status: connect", "status:connect",
   "domain name:", "domain:", "nsentry:", "changed:"]

/-- `reservedIndicators` of the checker, in source order. -/
def reservedIndicators : List String :=
  ["status: reserved", "status: restricted", "status: blocked",
   "status: prohibited", "status: reserved for registry",
   "status: reserved for registrar", "status: reserved for registry operator",
   "status: reserved for future use", "status: not available for registration",
   "status: not available for general registration",
   "status: reserved for special purposes", "status: reserved for government use",
   "status: reserved for educational institutions",
   "status: reserved for non-profit organizations",
   "domain reserved", "this domain is reserved", "reserved domain"]

/-- `availableIndicators` of the checker, in source order. -/
def availableIndicators : List String :=
  ["no match for", "not found", "no data found", "no entries found",
   "domain not found", "no object found", "no matching record",
   "status: free", "status: available", "available for registration",
   "this domain is available", "domain is available", "domain available"]

/-- `enhancedRegisteredIndicators` of the final-verification loop in
`CheckDomainAvailability`, in source order (including the never-matching
uppercase `"Status: connect"` entry, kept verbatim). -/
def enhancedRegisteredIndicators : List String :=
  ["registrar:", "registrant:", "creation date:", "created:",
   "updated date:", "updated:", "expiration date:", "expires:",
   "name server:", "nserver:", "nameserver:",
   "status: active", "status: client", "status: ok", "status: locked",
   "status: connect", "status:connect",
   "domain name:", "domain:", "Status: connect", "nsentry:", "changed:"]

/-- `specialStatusIndicators` of the final-verification loop, in source
order. -/
def specialStatusIndicators : List String :=
  ["status: redemptionperiod", "status: redemption period",
   "status: redemption", "redemptionperiod", "redemption period",
   "status: pendingdelete", "status: pending delete", "status: hold",
   "status: inactive", "status: suspended", "status: reserved",
   "status: quarantined", "status: pending", "status: transfer",
   "status: grace", "status: autorenewperiod", "status: auto renew period",
   "status: expire", "status: expired", "status: clienthold",
   "status: client hold", "status: serverhold", "status: server hold"]

/-- The five rate-limit phrases checked (on lowercased text) both against a
WHOIS response and against a WHOIS error in `CheckDomainAvailability`. -/
def rateLimitPhrases : List String :=
  ["connection refused", "access control", "limit exceeded",
   "rate limit", "too many requests"]

/-- The rate-limit disjunction of `CheckDomainAvailability`, applied to
already-lowercased text. -/
def isRateLimitText (r : String) : Bool := containsAny r rateLimitPhrases

/-- WHOIS-text classification inside `CheckDomainSignatures` (lines 339-370):
lowercase the response; an available indicator suppresses everything else;
otherwise the registered set can add `"WHOIS"` and the reserved set can add
`"RESERVED"` — both loops run, neither short-circuits the other. -/
def whoisSignaturesOf (whoisResult : String) : List String :=
  let result := asciiLower whoisResult
  if containsAny result availableIndicators then []
  else
    (if containsAny result registeredIndicators then ["WHOIS"] else []) ++
    (if containsAny result reservedIndicators then ["RESERVED"] else [])

/-- The `maxRetries`-attempt loop of the WHOIS block in
`CheckDomainSignatures`: the text of the first successful call (the loop
breaks on the first `err == nil`, even for an empty result), `""` when every
attempt errors.  First argument is the call index, second the number of
attempts left. -/
def firstWhoisSuccess (w : Nat → WhoisOutcome) : Nat → Nat → String
  | _, 0 => ""
  | i, r + 1 =>
    match w i with
    | .ok t => t
    | .err _ => firstWhoisSuccess w (i + 1) r

/-- Embedding of `CheckDomainSignatures`: DNS signatures (if enabled and the
lookup helper reported no error), then WHOIS-text signatures from the first
successful of `maxRetries = 3` calls (a non-empty result is required), then
the SSL signature (dial succeeded with at least one peer certificate).  The
function's only `return` is `signatures, nil`, so the error is always
`none`. -/
def CheckDomainSignatures (cfg : Option Config) (domain : String) (env : Env) :
    List String × Option String :=
  let dnsPart :=
    if dnsEnabled cfg then
      let dres := checkDNSRecords domain env.dns
      if dres.2 = none then dres.1 else []
    else []
  let whoisPart :=
    if whoisEnabled cfg then
      let whoisResult := firstWhoisSuccess env.whoisSig 0 3
      if whoisResult = "" then [] else whoisSignaturesOf whoisResult
    else []
  let sslPart :=
    if sslEnabled cfg then
      match env.ssl with
      | some hasCerts => if hasCerts then ["SSL"] else []
      | none => []
    else []
  (dnsPart ++ whoisPart ++ sslPart, none)

/-- Record built by `addToSpecialStatus(domain, reason)`. -/
def mkSpecialRecord (domain reason : String) : SpecialStatusDomain :=
  ⟨domain, reason, "WHOIS status: " ++ reason⟩

/-- Embedding of `handleRateLimitedDomain`: DNS evidence wins over an
unreachable WHOIS source; otherwise the domain is reported available, and
only when a global config has been set (`globalConfig != nil`) is a
`WHOIS_RATE_LIMITED` record appended. -/
def handleRateLimitedDomain (cfg : Option Config) (domain : String)
    (hasDNSSignatures : Bool) : Bool × List SpecialStatusDomain :=
  if hasDNSSignatures then (false, [])
  else
    match cfg with
    | some _ => (true, [mkSpecialRecord domain "WHOIS_RATE_LIMITED"])
    | none => (true, [])

/-- Result of handling one successful WHOIS response inside the
final-verification loop of `CheckDomainAvailability`. -/
inductive WhoisStep where
  | rateLimited
  | decided (available : Bool) (adds : List SpecialStatusDomain)
deriving DecidableEq

/-- One successful-response step of the final-verification loop: lowercase,
then in order — rate-limit phrases, available indicators (⇒ available),
enhanced registered indicators (⇒ registered), special-status indicators in
list order (⇒ registered-side verdict plus one record whose reason is the
upper-cased indicator with a leading `"status: "` stripped); a response
matching nothing `break`s out and the function returns available. -/
def availStep (domain text : String) : WhoisStep :=
  if isRateLimitText (asciiLower text) then .rateLimited
  else if containsAny (asciiLower text) availableIndicators then .decided true []
  else if containsAny (asciiLower text) enhancedRegisteredIndicators then .decided false []
  else
    match specialStatusIndicators.find? (fun i => goContains (asciiLower text) i) with
    | some ind =>
        .decided false [mkSpecialRecord domain (asciiUpper (goTrimPre "status: " ind))]
    | none => .decided true []

/-- The `maxRetries = 5` final-verification loop of `CheckDomainAvailability`.
First argument is the call index `i`, second the number of attempts left
after this one (`rem = 0` corresponds to `i == maxRetries-1`).  A rate-limited
response or rate-limited error on the last attempt degrades to
`handleRateLimitedDomain`; a non-rate-limit error just moves to the next
attempt, and an exhausted loop returns available. -/
def availAttempts (cfg : Option Config) (domain : String) (hasDNS : Bool)
    (whois : Nat → WhoisOutcome) : Nat → Nat → Bool × List SpecialStatusDomain
  | i, 0 =>
    match whois i with
    | .ok text =>
      match availStep domain text with
      | .rateLimited => handleRateLimitedDomain cfg domain hasDNS
      | .decided a adds => (a, adds)
    | .err msg =>
      if isRateLimitText (asciiLower msg) then handleRateLimitedDomain cfg domain hasDNS
      else (true, [])
  | i, r + 1 =>
    match whois i with
    | .ok text =>
      match availStep domain text with
      | .rateLimited => availAttempts cfg domain hasDNS whois (i + 1) r
      | .decided a adds => (a, adds)
    | .err msg =>
      if isRateLimitText (asciiLower msg) then availAttempts cfg domain hasDNS whois (i + 1) r
      else availAttempts cfg domain hasDNS whois (i + 1) r

/-- The five DNS signature tags, as tested by the classification loop of
`CheckDomainAvailability`. -/
def isDNSSignature (s : String) : Bool :=
  s == "DNS_NS" || s == "DNS_A" || s == "DNS_MX" || s == "DNS_TXT" || s == "DNS_CNAME"

/-- A signature that sets `hasRegistrationSignatures` in the loop (any DNS
tag, `"WHOIS"`, or `"SSL"`). -/
def isRegistrationSignature (s : String) : Bool :=
  isDNSSignature s || s == "WHOIS" || s == "SSL"

/-- Embedding of `CheckDomainAvailability`: gather signatures; RESERVED forces
not-available; any registration signature forces not-available; otherwise run
the five-attempt WHOIS verification loop.  Returns (available, error,
special-status records appended during the call).  The signature/DNS flags of
the Go `for` loop are the `any`-folds below. -/
def CheckDomainAvailability (cfg : Option Config) (domain : String) (env : Env) :
    Bool × Option String × List SpecialStatusDomain :=
  let sres := CheckDomainSignatures cfg domain env
  match sres.2 with
  | some e => (false, some e, [])
  | none =>
    let signatures := sres.1
    if signatures.contains "RESERVED" then (false, none, [])
    else
      let hasDNSSignatures := signatures.any isDNSSignature
      let hasRegistrationSignatures := signatures.any isRegistrationSignature
      if hasRegistrationSignatures then (false, none, [])
      else
        let p := availAttempts cfg domain hasDNSSignatures env.whoisAvail 0 4
        (p.1, none, p.2)

/-! ## Worker and aggregator (internal/worker, main.go) -/

/-- `types.DomainResult`. -/
structure DomainResult where
  domain : String
  available : Bool
  error : Option String
  signatures : List String
  specialStatus : String
deriving DecidableEq

/-- One worker iteration (`worker.Worker` body): `CheckDomainAvailability`
followed by a second, independent `CheckDomainSignatures` call (separate
network traffic, hence a separate environment), assembled into a
`DomainResult` whose `specialStatus` is always the empty placeholder. -/
def workerProcess (cfg : Option Config) (domainName : String)
    (envAvail envSig : Env) : DomainResult :=
  let r := CheckDomainAvailability cfg domainName envAvail
  let s := CheckDomainSignatures cfg domainName envSig
  { domain := domainName
    available := r.1
    error := r.2.1
    signatures := s.1
    specialStatus := "" }

/-- The three branches of the result-collection loop in `main`. -/
inductive AggAction where
  | errorMsg
  | availableMsg
  | registeredMsg
deriving DecidableEq

/-- Branch taken by the aggregator for one result (`main.go`, result loop):
the error branch when `result.Error != nil`, otherwise by `result.Available`. -/
def aggClassify (r : DomainResult) : AggAction :=
  if r.error.isSome then .errorMsg
  else if r.available then .availableMsg
  else .registeredMsg

/-- The completion monitor's first busy-wait in `main`
(`for totalGenerated == 0 { time.Sleep }`): it ends exactly when the
once-assigned generated count is non-zero. -/
def monitorFirstWaitEnds (totalGenerated : Nat) : Bool :=
  totalGenerated != 0

/-! ## Helper lemmas -/

lemma goTotal_eq_pow (size n : Nat) : goTotal size n = size ^ n := by
  induction n with
  | zero => rfl
  | succ n ih =>
    rw [goTotal, List.range_succ, List.foldl_append, ← goTotal, ih]
    simp [pow_succ]

lemma counterChars_length (cs : List Char) (l : Nat) :
    ∀ temp, (counterChars cs l temp).length = l := by
  induction l with
  | zero => intro temp; rfl
  | succ l ih => intro temp; simp [counterChars, ih]

lemma counterChars_inj (cs : List Char) (hnd : cs.Nodup) (hpos : 0 < cs.length) :
    ∀ (l a b : Nat), a < cs.length ^ l → b < cs.length ^ l →
      counterChars cs l a = counterChars cs l b → a = b := by
  intro l
  induction l with
  | zero =>
    intro a b ha hb _
    simp only [pow_zero, Nat.lt_one_iff] at ha hb
    omega
  | succ l ih =>
    intro a b ha hb heq
    simp only [counterChars] at heq
    obtain ⟨h1, h2⟩ := List.append_inj' heq rfl
    have h2' : cs.getD (a % cs.length) 'a' = cs.getD (b % cs.length) 'a' := by
      simpa using h2
    have hma : a % cs.length < cs.length := Nat.mod_lt _ hpos
    have hmb : b % cs.length < cs.length := Nat.mod_lt _ hpos
    rw [List.getD_eq_getElem _ _ hma, List.getD_eq_getElem _ _ hmb] at h2'
    have hmod : a % cs.length = b % cs.length := (hnd.getElem_inj_iff).mp h2'
    have hda : a / cs.length < cs.length ^ l := by
      rw [Nat.div_lt_iff_lt_mul hpos]
      calc a < cs.length ^ (l + 1) := ha
        _ = cs.length ^ l * cs.length := pow_succ cs.length l
    have hdb : b / cs.length < cs.length ^ l := by
      rw [Nat.div_lt_iff_lt_mul hpos]
      calc b < cs.length ^ (l + 1) := hb
        _ = cs.length ^ l * cs.length := pow_succ cs.length l
    have hdiv := ih (a / cs.length) (b / cs.length) hda hdb h1
    have da := Nat.div_add_mod a cs.length
    have db := Nat.div_add_mod b cs.length
    rw [hdiv, hmod] at da
    omega

lemma mk_append_data (l : List Char) (s : String) :
    (String.mk l ++ s).data = l ++ s.data := by
  cases s; rfl

lemma mk_append_length (l : List Char) (s : String) :
    (String.mk l ++ s).length = l.length + s.length := by
  cases s with
  | mk d => show (l ++ d).length = l.length + d.length; exact List.length_append l d

lemma filterMap_some_eq_map {α β : Type} (f : α → β) (l : List α) :
    l.filterMap (fun a => some (f a)) = l.map f := by
  induction l with
  | nil => rfl
  | cons a t ih => simp [List.filterMap_cons, ih]

lemma genDomains_no_filter (cs : List Char) (length : Int) (suffix : String)
    (mode : RegexMode) (hcs : cs.length ≠ 0) (hl : 0 < length) :
    genDomains cs length suffix none mode =
      (List.range (cs.length ^ length.toNat)).map
        (fun counter => String.mk (counterChars cs length.toNat counter) ++ suffix) := by
  cases mode <;>
  · unfold genDomains
    rw [if_neg (by push_neg; exact ⟨hcs, by omega⟩)]
    show (List.range (goTotal cs.length length.toNat)).filterMap
      (fun counter => some (String.mk (counterChars cs length.toNat counter) ++ suffix)) = _
    rw [goTotal_eq_pow]
    exact filterMap_some_eq_map _ _

lemma c4core (cs : List Char) (hnd : cs.Nodup) (hpos : 0 < cs.length)
    (length : Int) (hlen : 0 < length) (suffix : String) (mode : RegexMode) :
    (genDomains cs length suffix none mode).length = cs.length ^ length.toNat ∧
    (∀ d ∈ genDomains cs length suffix none mode,
        d.length = length.toNat + suffix.length) ∧
    (genDomains cs length suffix none mode).Nodup ∧
    genDomains cs length suffix none mode =
      (List.range (cs.length ^ length.toNat)).map
        (fun counter => String.mk (counterChars cs length.toNat counter) ++ suffix) := by
  have hmap := genDomains_no_filter cs length suffix mode (by omega) hlen
  refine ⟨?_, ?_, ?_, hmap⟩
  · rw [hmap]; simp
  · intro d hd
    rw [hmap] at hd
    simp only [List.mem_map] at hd
    obtain ⟨counter, _, rfl⟩ := hd
    rw [mk_append_length, counterChars_length]
  · rw [hmap]
    apply List.Nodup.map_on _ (List.nodup_range _)
    intro a ha b hb hfeq
    simp only [List.mem_range] at ha hb
    have hdata := congrArg String.data hfeq
    rw [mk_append_data, mk_append_data] at hdata
    obtain ⟨h1, _⟩ :=
      List.append_inj hdata (by rw [counterChars_length, counterChars_length])
    exact counterChars_inj cs hnd hpos _ a b ha hb h1

/-! ## Claim C4 -/

/-- C4: for every valid pattern (digits, letters, alphanumeric) and every
valid positive length (within the exact range of Go's 64-bit int
arithmetic), the unfiltered generator emits exactly
`alphabetSize(pattern) ^ length` candidates, each of character length
`length + |suffix|`, all pairwise distinct, each obtained from its integer
counter by repeated division/modulo with the most significant symbol first;
and this count equals `CalculateDomainsCount(length, pattern)`. -/
theorem c4_generator_enumeration (pattern : String) (cs : List Char) (length : Int)
    (suffix : String) (mode : RegexMode)
    (hcs : charsetFor pattern = some cs) (hlen : 0 < length)
    (hnoflow : cs.length ^ length.toNat < 2 ^ 63) :
    (genDomains cs length suffix none mode).length = cs.length ^ length.toNat ∧
    (genDomains cs length suffix none mode).length = CalculateDomainsCount length pattern ∧
    (∀ d ∈ genDomains cs length suffix none mode,
        d.length = length.toNat + suffix.length) ∧
    (genDomains cs length suffix none mode).Nodup ∧
    genDomains cs length suffix none mode =
      (List.range (cs.length ^ length.toNat)).map
        (fun counter => String.mk (counterChars cs length.toNat counter) ++ suffix) := by
  have hcases : (cs = numbersCharset ∧ pattern = "d") ∨
      (cs = lettersCharset ∧ pattern = "D") ∨
      (cs = lettersCharset ++ numbersCharset ∧ pattern = "a") := by
    unfold charsetFor at hcs; split at hcs <;> simp_all
  rcases hcases with ⟨rfl, rfl⟩ | ⟨rfl, rfl⟩ | ⟨rfl, rfl⟩
  · obtain ⟨hA, hB, hC, hD⟩ :=
      c4core numbersCharset (by decide) (by decide) length hlen suffix mode
    refine ⟨hA, ?_, hB, hC, hD⟩
    rw [hA, show CalculateDomainsCount length "d" = goTotal 10 length.toNat from rfl,
      goTotal_eq_pow, show numbersCharset.length = 10 from by decide]
  · obtain ⟨hA, hB, hC, hD⟩ :=
      c4core lettersCharset (by decide) (by decide) length hlen suffix mode
    refine ⟨hA, ?_, hB, hC, hD⟩
    rw [hA, show CalculateDomainsCount length "D" = goTotal 26 length.toNat from rfl,
      goTotal_eq_pow, show lettersCharset.length = 26 from by decide]
  · obtain ⟨hA, hB, hC, hD⟩ :=
      c4core (lettersCharset ++ numbersCharset) (by decide) (by decide) length hlen suffix mode
    refine ⟨hA, ?_, hB, hC, hD⟩
    rw [hA, show CalculateDomainsCount length "a" = goTotal 36 length.toNat from rfl,
      goTotal_eq_pow, show (lettersCharset ++ numbersCharset).length = 36 from by decide]

/-- Witness for C4 at pattern `"D"`, length 2, suffix `".li"`. -/
theorem c4_generator_enumeration_witness :
    (genDomains lettersCharset 2 ".li" none RegexMode.full).length =
      lettersCharset.length ^ (2 : Int).toNat ∧
    (genDomains lettersCharset 2 ".li" none RegexMode.full).length =
      CalculateDomainsCount 2 "D" :=
  ⟨(c4_generator_enumeration "D" lettersCharset 2 ".li" RegexMode.full rfl
      (by decide) (by decide)).1,
   (c4_generator_enumeration "D" lettersCharset 2 ".li" RegexMode.full rfl
      (by decide) (by decide)).2.1⟩

/-! ## Claim C5 -/

/-- Modelled from the spec: the compiled regexp2 matcher for the filter
`"^a"` — matches exactly the strings whose first character is `'a'`. -/
def matchHatA (s : String) : Bool := s.data.head? == some 'a'

/-- C5: in full mode the filter is applied to candidate+suffix, in prefix
mode only to the body before the suffix; non-matching candidates are never
emitted; and the scenario length=2, suffix=".ai", letters, filter "^a" in
full mode emits exactly the 26 candidates "aa.ai" … "az.ai". -/
theorem c5_regex_filter_modes :
    (∀ (cs : List Char) (length : Int) (suffix : String) (f : String → Bool),
      ∀ d ∈ genDomains cs length suffix (some f) RegexMode.full, f d = true) ∧
    (∀ (cs : List Char) (length : Int) (suffix : String) (f : String → Bool),
      ∀ d ∈ genDomains cs length suffix (some f) RegexMode.prefixMode,
        ∃ body : List Char, d = String.mk body ++ suffix ∧ f (String.mk body) = true) ∧
    genDomains lettersCharset 2 ".ai" (some matchHatA) RegexMode.full =
      lettersCharset.map (fun c => String.mk ['a', c, '.', 'a', 'i']) := by
  refine ⟨?_, ?_, by decide⟩
  · intro cs length suffix f d hd
    by_cases hguard : cs.length = 0 ∨ length ≤ 0
    · rw [genDomains, if_pos hguard] at hd; simp at hd
    · rw [genDomains, if_neg hguard] at hd
      simp only [List.mem_filterMap, Option.ite_none_right_eq_some,
        Option.some.injEq] at hd
      obtain ⟨counter, _, hok, rfl⟩ := hd
      exact hok
  · intro cs length suffix f d hd
    by_cases hguard : cs.length = 0 ∨ length ≤ 0
    · rw [genDomains, if_pos hguard] at hd; simp at hd
    · rw [genDomains, if_neg hguard] at hd
      simp only [List.mem_filterMap, Option.ite_none_right_eq_some,
        Option.some.injEq] at hd
      obtain ⟨counter, _, hok, rfl⟩ := hd
      exact ⟨counterChars cs length.toNat counter, rfl, hok⟩

/-- Witness for C5: instantiates the two mode statements on the scenario
filter and a concrete emitted candidate. -/
theorem c5_regex_filter_modes_witness :
    matchHatA "ab.ai" = true ∧
    (∃ body : List Char, ("ab.li" : String) = String.mk body ++ ".li" ∧
      matchHatA (String.mk body) = true) :=
  ⟨c5_regex_filter_modes.1 lettersCharset 2 ".ai" matchHatA "ab.ai" (by decide),
   c5_regex_filter_modes.2.1 lettersCharset 2 ".li" matchHatA "ab.li" (by decide)⟩

/-! ## Claim C6 -/

/-- C6: the regex complexity validator rejects every pattern longer than 200
bytes, every pattern containing a deny-listed substring (the deny-list
includes `"(a+)+"`), every pattern with more than five `+`/`*` characters
combined, and accepts `"^[a-z]{2}[0-9]$"`. -/
theorem c6_regex_guard (p : String) :
    (200 < goLen p → (validateRegexComplexity p).isSome = true) ∧
    (∀ d ∈ dangerousPatterns, goContains p d = true →
      (validateRegexComplexity p).isSome = true) ∧
    (5 < goCountChar p '+' + goCountChar p '*' →
      (validateRegexComplexity p).isSome = true) ∧
    "(a+)+" ∈ dangerousPatterns ∧
    validateRegexComplexity "^[a-z]\x7b2\x7d[0-9]$" = none := by
  refine ⟨?_, ?_, ?_, by decide, by decide⟩
  · intro h200
    unfold validateRegexComplexity
    rw [if_pos h200]; rfl
  · intro d hd hc
    unfold validateRegexComplexity
    by_cases h200 : 200 < goLen p
    · rw [if_pos h200]; rfl
    · rw [if_neg h200]
      cases hfind : dangerousPatterns.find? (fun x => goContains p x) with
      | some e => rfl
      | none => exact absurd hc (List.find?_eq_none.mp hfind d hd)
  · intro hq
    unfold validateRegexComplexity
    by_cases h200 : 200 < goLen p
    · rw [if_pos h200]; rfl
    · rw [if_neg h200]
      cases hfind : dangerousPatterns.find? (fun x => goContains p x) with
      | some e => rfl
      | none => simp [hq]

/-- Witness for C6: an oversized pattern, a pattern containing `"(a+)+"`,
and a pattern with six quantifier characters are all rejected. -/
theorem c6_regex_guard_witness :
    (validateRegexComplexity (String.mk (List.replicate 201 'a'))).isSome = true ∧
    (validateRegexComplexity "ab(a+)+cd").isSome = true ∧
    (validateRegexComplexity "a+a+a+a+a+a+").isSome = true :=
  ⟨(c6_regex_guard _).1 (by decide),
   (c6_regex_guard "ab(a+)+cd").2.1 "(a+)+" (by decide) (by decide),
   (c6_regex_guard _).2.2.1 (by decide)⟩

/-! ## Claim C8 -/

/-- Modelled from the spec: the compiled regexp2 matcher for the filter
`"^9"` — matches exactly the strings whose first character is `'9'`
(no letters-only candidate matches it). -/
def matchHat9 (s : String) : Bool := s.data.head? == some '9'

/-- C8 (code bug): with a filter that passes no candidate, the generator
emits the empty sequence, and the completion monitor's first busy-wait
(`for totalGenerated == 0`) never ends at generated count 0 — `main` never
closes the result channel, so the run never reaches the completion point at
which `processedCount == generatedCount` could be observed. -/
theorem c8_zero_candidate_completion_bug :
    genDomains lettersCharset 1 ".li" (some matchHat9) RegexMode.full = [] ∧
    monitorFirstWaitEnds 0 = false := by decide

/-! ## Claim C10 -/

/-- C10: for length ≤ 0 the generator emits nothing at all, while
`CalculateDomainsCount(0, pattern)` returns 1 for each valid pattern, so at
length 0 the generated count and the reported base count disagree. -/
theorem c10_zero_length_mismatch :
    (∀ (cs : List Char) (length : Int) (suffix : String)
        (filt : Option (String → Bool)) (mode : RegexMode),
      length ≤ 0 → genDomains cs length suffix filt mode = []) ∧
    (CalculateDomainsCount 0 "d" = 1 ∧ CalculateDomainsCount 0 "D" = 1 ∧
      CalculateDomainsCount 0 "a" = 1) ∧
    ((genDomains lettersCharset 0 ".li" none RegexMode.full).length ==
      CalculateDomainsCount 0 "D") = false := by
  refine ⟨?_, by decide, by decide⟩
  intro cs length suffix filt mode h
  rw [genDomains]
  exact if_pos (Or.inr h)

/-- Witness for C10: a negative length produces the empty sequence. -/
theorem c10_zero_length_mismatch_witness :
    genDomains lettersCharset (-3) ".li" none RegexMode.full = [] :=
  c10_zero_length_mismatch.1 lettersCharset (-3) ".li" none RegexMode.full (by decide)

/-! ## Classifier helper lemmas -/

/-- A WHOIS call outcome that counts as rate-limited in the
final-verification loop (response text or error message matching the five
phrases after lowercasing). -/
def outcomeRateLimited : WhoisOutcome → Bool
  | .ok t => isRateLimitText (asciiLower t)
  | .err m => isRateLimitText (asciiLower m)

lemma CheckDomainSignatures_error (cfg : Option Config) (d : String) (env : Env) :
    (CheckDomainSignatures cfg d env).2 = none := rfl

lemma CheckDomainAvailability_eq (cfg : Option Config) (d : String) (env : Env) :
    CheckDomainAvailability cfg d env =
      (if (CheckDomainSignatures cfg d env).1.contains "RESERVED" then
         (false, none, [])
       else if (CheckDomainSignatures cfg d env).1.any isRegistrationSignature then
         (false, none, [])
       else
         ((availAttempts cfg d ((CheckDomainSignatures cfg d env).1.any isDNSSignature)
             env.whoisAvail 0 4).1,
          none,
          (availAttempts cfg d ((CheckDomainSignatures cfg d env).1.any isDNSSignature)
             env.whoisAvail 0 4).2)) := rfl

lemma availStep_rateLimited (d text : String)
    (h : isRateLimitText (asciiLower text) = true) :
    availStep d text = WhoisStep.rateLimited := by
  simp [availStep, h]

lemma availStep_no_indicators (d text : String)
    (hrl : isRateLimitText (asciiLower text) = false)
    (hav : containsAny (asciiLower text) availableIndicators = false)
    (hreg : containsAny (asciiLower text) enhancedRegisteredIndicators = false)
    (hsp : ∀ i ∈ specialStatusIndicators, goContains (asciiLower text) i = false) :
    availStep d text = WhoisStep.decided true [] := by
  have hfind : specialStatusIndicators.find? (fun i => goContains (asciiLower text) i) =
      none := by
    rw [List.find?_eq_none]; intro x hx; simp [hsp x hx]
  simp [availStep, hrl, hav, hreg, hfind]

lemma availAttempts_ok_decided (cfg : Option Config) (d : String) (hasDNS : Bool)
    (whois : Nat → WhoisOutcome) (i rem : Nat) (text : String) (a : Bool)
    (adds : List SpecialStatusDomain)
    (hok : whois i = WhoisOutcome.ok text)
    (hstep : availStep d text = WhoisStep.decided a adds) :
    availAttempts cfg d hasDNS whois i rem = (a, adds) := by
  cases rem <;> simp [availAttempts, hok, hstep]

lemma availAttempts_all_rate_limited (cfg : Option Config) (d : String) (hasDNS : Bool)
    (whois : Nat → WhoisOutcome) (h : ∀ j, outcomeRateLimited (whois j) = true) :
    ∀ rem i : Nat,
      availAttempts cfg d hasDNS whois i rem = handleRateLimitedDomain cfg d hasDNS := by
  intro rem
  induction rem with
  | zero =>
    intro i
    have hi := h i
    cases hw : whois i with
    | ok t =>
      rw [hw] at hi; simp only [outcomeRateLimited] at hi
      simp [availAttempts, hw, availStep_rateLimited d t hi]
    | err m =>
      rw [hw] at hi; simp only [outcomeRateLimited] at hi
      simp [availAttempts, hw, hi]
  | succ r ih =>
    intro i
    have hi := h i
    cases hw : whois i with
    | ok t =>
      rw [hw] at hi; simp only [outcomeRateLimited] at hi
      simp [availAttempts, hw, availStep_rateLimited d t hi, ih (i + 1)]
    | err m =>
      rw [hw] at hi; simp only [outcomeRateLimited] at hi
      simp [availAttempts, hw, hi, ih (i + 1)]

/-! ## Claim C1 -/

/-- C1: for every candidate, the availability check classifies from the
gathered signature set: a RESERVED signature forces not-available; any
DNS/WHOIS/SSL signature forces not-available; and when neither is present,
WHOIS is reachable, and its response matches no indicator set and is not
rate-limited, the verdict is Available. -/
theorem c1_classifier_policy (cfg : Option Config) (domain : String) (env : Env) :
    (("RESERVED" ∈ (CheckDomainSignatures cfg domain env).1) →
      (CheckDomainAvailability cfg domain env).1 = false) ∧
    ((∃ s ∈ (CheckDomainSignatures cfg domain env).1, isRegistrationSignature s = true) →
      (CheckDomainAvailability cfg domain env).1 = false) ∧
    (∀ text : String,
      env.whoisAvail 0 = WhoisOutcome.ok text →
      isRateLimitText (asciiLower text) = false →
      containsAny (asciiLower text) availableIndicators = false →
      containsAny (asciiLower text) enhancedRegisteredIndicators = false →
      (∀ i ∈ specialStatusIndicators, goContains (asciiLower text) i = false) →
      ("RESERVED" ∉ (CheckDomainSignatures cfg domain env).1) →
      (∀ s ∈ (CheckDomainSignatures cfg domain env).1, isRegistrationSignature s = false) →
      (CheckDomainAvailability cfg domain env).1 = true) := by
  refine ⟨fun h => ?_, fun h => ?_, fun text hok hrl hav hreg hsp hres hnoreg => ?_⟩
  · rw [CheckDomainAvailability_eq,
      if_pos (show (CheckDomainSignatures cfg domain env).1.contains "RESERVED" = true by
        simp [h])]
  · by_cases hres : (CheckDomainSignatures cfg domain env).1.contains "RESERVED" = true
    · rw [CheckDomainAvailability_eq, if_pos hres]
    · rw [CheckDomainAvailability_eq, if_neg hres,
        if_pos (show (CheckDomainSignatures cfg domain env).1.any isRegistrationSignature
            = true by simp only [List.any_eq_true]; exact h)]
  · have hcontains : (CheckDomainSignatures cfg domain env).1.contains "RESERVED" = false := by
      simpa using hres
    have hanyreg : (CheckDomainSignatures cfg domain env).1.any isRegistrationSignature
        = false := by
      simp only [List.any_eq_false]
      intro s hs
      simp [hnoreg s hs]
    rw [CheckDomainAvailability_eq, if_neg (by rw [hcontains]; simp),
      if_neg (by rw [hanyreg]; simp)]
    rw [availAttempts_ok_decided cfg domain _ env.whoisAvail 0 4 text true [] hok
      (availStep_no_indicators domain text hrl hav hreg hsp)]

/-- Witness for C1: a reserved-WHOIS candidate and a DNS-A candidate are
classified not-available; a candidate with no signatures and a clean WHOIS
response is classified available. -/
theorem c1_classifier_policy_witness :
    (CheckDomainAvailability none "ab.li"
      ⟨⟨false, false, false, false, none⟩, fun _ => .ok "status: reserved", none,
        fun _ => .err "x"⟩).1 = false ∧
    (CheckDomainAvailability none "ab.li"
      ⟨⟨false, true, false, false, none⟩, fun _ => .err "x", none,
        fun _ => .err "x"⟩).1 = false ∧
    (CheckDomainAvailability none "ab.li"
      ⟨⟨false, false, false, false, none⟩, fun _ => .err "x", none,
        fun _ => .ok "hello"⟩).1 = true :=
  ⟨(c1_classifier_policy none "ab.li" _).1 (by decide),
   (c1_classifier_policy none "ab.li" _).2.1 ⟨"DNS_A", by decide, by decide⟩,
   (c1_classifier_policy none "ab.li" _).2.2 "hello" rfl (by decide) (by decide)
     (by decide) (by decide) (by decide) (by decide)⟩

/-! ## Claim C2 -/

/-- A probe environment whose every WHOIS call (both phases) fails with a
rate-limit error and whose DNS/TLS probes find nothing. -/
def rlProbeEnv : Env :=
  ⟨⟨false, false, false, false, none⟩, fun _ => .err "rate limit", none,
    fun _ => .err "rate limit"⟩

/-- C2 counterexample: with no global config set (`SetConfig` never called —
pure command-line mode), a candidate with no signatures whose WHOIS calls are
rate-limited on every attempt is reported Available with NO
`WHOIS_RATE_LIMITED` record: the claim's "exactly one record, never silently
folded into available" fails. -/
theorem c2_rate_limit_fallback_counterexample :
    (CheckDomainAvailability none "ab.li" rlProbeEnv).1 = true ∧
    (CheckDomainAvailability none "ab.li" rlProbeEnv).2.2 = [] ∧
    ((CheckDomainAvailability none "ab.li" rlProbeEnv).2.2.length == 1) = false := by
  decide

/-- C2 (amended): for a candidate whose final-verification WHOIS calls are
rate-limited on every attempt: if it carries any registration signature
(DNS/WHOIS/SSL) the verdict is Registered with no record; otherwise the
verdict is Available, and exactly one `WHOIS_RATE_LIMITED` record is appended
when a global config has been set, while with no config set the uncertainty
is silently folded into available (no record). -/
theorem c2_rate_limit_fallback (cfg : Option Config) (domain : String) (env : Env)
    (hrl : ∀ j, outcomeRateLimited (env.whoisAvail j) = true) :
    (("RESERVED" ∉ (CheckDomainSignatures cfg domain env).1) →
      (∃ s ∈ (CheckDomainSignatures cfg domain env).1, isRegistrationSignature s = true) →
      (CheckDomainAvailability cfg domain env).1 = false ∧
        (CheckDomainAvailability cfg domain env).2.2 = []) ∧
    (("RESERVED" ∉ (CheckDomainSignatures cfg domain env).1) →
      (∀ s ∈ (CheckDomainSignatures cfg domain env).1, isRegistrationSignature s = false) →
      (CheckDomainAvailability cfg domain env).1 = true ∧
        (CheckDomainAvailability cfg domain env).2.2 =
          (match cfg with
           | some _ => [mkSpecialRecord domain "WHOIS_RATE_LIMITED"]
           | none => [])) := by
  constructor
  · intro hres hex
    have hcontains : (CheckDomainSignatures cfg domain env).1.contains "RESERVED"
        = false := by simpa using hres
    have hany : (CheckDomainSignatures cfg domain env).1.any isRegistrationSignature
        = true := by simp only [List.any_eq_true]; exact hex
    rw [CheckDomainAvailability_eq, if_neg (by rw [hcontains]; simp), if_pos hany]
    exact ⟨rfl, rfl⟩
  · intro hres hnone
    have hcontains : (CheckDomainSignatures cfg domain env).1.contains "RESERVED"
        = false := by simpa using hres
    have hanyreg : (CheckDomainSignatures cfg domain env).1.any isRegistrationSignature
        = false := by
      simp only [List.any_eq_false]
      intro s hs
      simp [hnone s hs]
    have hdns : (CheckDomainSignatures cfg domain env).1.any isDNSSignature = false := by
      simp only [List.any_eq_false]
      intro s hs
      intro hdn
      have h1 := hnone s hs
      simp [isRegistrationSignature, hdn] at h1
    rw [CheckDomainAvailability_eq, if_neg (by rw [hcontains]; simp),
      if_neg (by rw [hanyreg]; simp), hdns,
      availAttempts_all_rate_limited cfg domain false env.whoisAvail hrl 4 0]
    cases cfg with
    | none => exact ⟨rfl, rfl⟩
    | some c => exact ⟨rfl, rfl⟩

/-- Witness for C2 (amended): with a config set, the all-rate-limited
no-signature candidate is Available with exactly the one record. -/
theorem c2_rate_limit_fallback_witness :
    (CheckDomainAvailability (some ⟨true, true, true⟩) "ab.li" rlProbeEnv).1 = true ∧
    (CheckDomainAvailability (some ⟨true, true, true⟩) "ab.li" rlProbeEnv).2.2 =
      [mkSpecialRecord "ab.li" "WHOIS_RATE_LIMITED"] :=
  (c2_rate_limit_fallback (some ⟨true, true, true⟩) "ab.li" rlProbeEnv
    (fun _ => rfl)).2 (by decide) (by decide)

/-! ## Claim C3 -/

/-- Modelled from the spec, for refutation only: WHOIS-text signature
extraction under the spec's claimed strict precedence Available, Reserved,
Registered, Special-status with a short-circuit on the first matching set. -/
def claimedPrecedenceSignatures (whoisResult : String) : List String :=
  if containsAny (asciiLower whoisResult) availableIndicators then []
  else if containsAny (asciiLower whoisResult) reservedIndicators then ["RESERVED"]
  else if containsAny (asciiLower whoisResult) registeredIndicators then ["WHOIS"]
  else []

/-- C3 counterexample: on a response containing both a Registered and a
Reserved indicator, `CheckDomainSignatures` emits BOTH signatures (Registered
checked first), so the matching is not the claimed short-circuiting
Available > Reserved > Registered > Special order, which would emit only
`RESERVED`. -/
theorem c3_counterexample :
    whoisSignaturesOf "registrar: x status: reserved" = ["WHOIS", "RESERVED"] ∧
    claimedPrecedenceSignatures "registrar: x status: reserved" = ["RESERVED"] ∧
    (whoisSignaturesOf "registrar: x status: reserved" ==
      claimedPrecedenceSignatures "registrar: x status: reserved") = false := by
  decide

/-- C3 (amended): Available indicators are checked first and short-circuit
everything: a response containing one contributes no WHOIS/RESERVED
signature, and in the final-verification pass (absent rate-limit phrases)
yields the Available verdict immediately, whatever else the response
contains.  Absent an Available indicator, the Registered and Reserved sets
are both checked (Registered first, no short-circuit between them) and can
both contribute their signature. -/
theorem c3_available_precedence :
    (∀ t : String, containsAny (asciiLower t) availableIndicators = true →
      whoisSignaturesOf t = []) ∧
    (∀ domain t : String, containsAny (asciiLower t) availableIndicators = true →
      isRateLimitText (asciiLower t) = false →
      availStep domain t = WhoisStep.decided true []) ∧
    (∀ t : String, containsAny (asciiLower t) availableIndicators = false →
      containsAny (asciiLower t) registeredIndicators = true →
      containsAny (asciiLower t) reservedIndicators = true →
      whoisSignaturesOf t = ["WHOIS", "RESERVED"]) := by
  refine ⟨?_, ?_, ?_⟩
  · intro t h
    simp [whoisSignaturesOf, h]
  · intro domain t h hrl
    simp [availStep, hrl, h]
  · intro t h hreg hresv
    simp [whoisSignaturesOf, h, hreg, hresv]

/-- Witness for C3 (amended) on concrete WHOIS responses. -/
theorem c3_available_precedence_witness :
    whoisSignaturesOf "no match for x" = [] ∧
    availStep "ab.li" "no match for x" = WhoisStep.decided true [] ∧
    whoisSignaturesOf "registrant: x domain reserved" = ["WHOIS", "RESERVED"] :=
  ⟨c3_available_precedence.1 "no match for x" (by decide),
   c3_available_precedence.2.1 "ab.li" "no match for x" (by decide) (by decide),
   c3_available_precedence.2.2 "registrant: x domain reserved" (by decide) (by decide)
     (by decide)⟩

/-! ## Claim C7 -/

/-- C7: a WHOIS response containing `"status: redemptionperiod"` (after
lowercasing) that is not rate-limited and matches no Available or Registered
indicator first, for a candidate with no probe signatures, yields
Available = false together with exactly one special-status record whose
status reason is `"REDEMPTIONPERIOD"`. -/
theorem c7_redemption_period (cfg : Option Config) (domain : String) (env : Env)
    (text : String)
    (hok : env.whoisAvail 0 = WhoisOutcome.ok text)
    (hred : goContains (asciiLower text) "status: redemptionperiod" = true)
    (hrl : isRateLimitText (asciiLower text) = false)
    (hav : containsAny (asciiLower text) availableIndicators = false)
    (hreg : containsAny (asciiLower text) enhancedRegisteredIndicators = false)
    (hsig : (CheckDomainSignatures cfg domain env).1 = []) :
    CheckDomainAvailability cfg domain env =
      (false, none, [mkSpecialRecord domain "REDEMPTIONPERIOD"]) ∧
    (mkSpecialRecord domain "REDEMPTIONPERIOD").status = "REDEMPTIONPERIOD" ∧
    (mkSpecialRecord domain "REDEMPTIONPERIOD").domain = domain := by
  refine ⟨?_, rfl, rfl⟩
  have hup : asciiUpper (goTrimPre "status: " "status: redemptionperiod") =
      "REDEMPTIONPERIOD" := by decide
  have hfind : specialStatusIndicators.find? (fun i => goContains (asciiLower text) i) =
      some "status: redemptionperiod" := by
    rw [show specialStatusIndicators =
      "status: redemptionperiod" :: specialStatusIndicators.tail from rfl]
    exact List.find?_cons_of_pos _ hred
  have hstep : availStep domain text =
      WhoisStep.decided false [mkSpecialRecord domain "REDEMPTIONPERIOD"] := by
    simp [availStep, hrl, hav, hreg, hfind, hup]
  rw [CheckDomainAvailability_eq, hsig,
    availAttempts_ok_decided cfg domain (([] : List String).any isDNSSignature)
      env.whoisAvail 0 4 text false [mkSpecialRecord domain "REDEMPTIONPERIOD"] hok hstep]
  exact rfl

/-- The probe environment of the C7 witness: no DNS/TLS evidence, the
signature-phase WHOIS erroring, the verification-phase WHOIS answering with
a redemption-period status. -/
def redemptionEnv : Env :=
  ⟨⟨false, false, false, false, none⟩, fun _ => .err "x", none,
    fun _ => .ok "Status: REDEMPTIONPERIOD"⟩

/-- Witness for C7 on the concrete response `"Status: REDEMPTIONPERIOD"`. -/
theorem c7_redemption_period_witness :
    CheckDomainAvailability none "ab.li" redemptionEnv =
      (false, none, [mkSpecialRecord "ab.li" "REDEMPTIONPERIOD"]) :=
  (c7_redemption_period none "ab.li" redemptionEnv "Status: REDEMPTIONPERIOD" rfl
    (by decide) (by decide) (by decide) (by decide) (by decide)).1

/-! ## Claim C9 -/

/-- C9: `CheckDomainSignatures` always returns a nil error,
`CheckDomainAvailability` can return a non-nil error only from
`CheckDomainSignatures` and hence never does, every worker `DomainResult`
carries a nil error, and the aggregator's per-candidate error branch is
unreachable. -/
theorem c9_error_plumbing (cfg : Option Config) (domainName : String)
    (envAvail envSig : Env) :
    (CheckDomainSignatures cfg domainName envSig).2 = none ∧
    (CheckDomainAvailability cfg domainName envAvail).2.1 = none ∧
    (workerProcess cfg domainName envAvail envSig).error = none ∧
    (aggClassify (workerProcess cfg domainName envAvail envSig) == AggAction.errorMsg)
      = false := by
  have herr : (CheckDomainAvailability cfg domainName envAvail).2.1 = none := by
    rw [CheckDomainAvailability_eq]
    by_cases h1 : (CheckDomainSignatures cfg domainName envAvail).1.contains "RESERVED"
        = true
    · rw [if_pos h1]
    · rw [if_neg h1]
      by_cases h2 : (CheckDomainSignatures cfg domainName envAvail).1.any
          isRegistrationSignature = true
      · rw [if_pos h2]
      · rw [if_neg h2]
  have hwerr : (workerProcess cfg domainName envAvail envSig).error = none := herr
  refine ⟨rfl, herr, hwerr, ?_⟩
  simp only [aggClassify, hwerr]
  by_cases hav : (workerProcess cfg domainName envAvail envSig).available = true
  · simp [hav]
  · simp [hav]

end DomainScanner
